import Mathlib

/-!
# pre-commit-goreportcard: the `run` and `main` functions of `main.go`

A shallow embedding of `src/main/main.go` and the properties of its
aggregation step.

Modelling conventions.

* In `run`, a Go `float64` that the analyzers hand over (a weight, a percentage)
  is an exact rational, and the sums, the products and the quotient are exact.
  The one operation of `run` that leaves the finite numbers is
  `total /= totalWeight` with a zero divisor, which in Go does not trap but
  yields NaN or an infinity.  The type `F64` adds these three values to the
  rationals.
* In `main`, the threshold is any `F64` (the flag accepts NaN and the
  infinities), the comparison is the one of IEEE 754, and the product
  `result.Average*100` is rounded: the rounding of `float64` arithmetic enters
  as a parameter `rnd`, on which nothing is assumed.
* The goroutines and the channel are not modelled.  `run` receives the scores in
  the order in which `s := <-ch` delivers them (`arrived`); that order is an
  arbitrary arrangement of the scores of the analyzers.
* Package `check` and the standard library are not part of the repository.
  `check.GoFiles` enters as its returned triple, `check.GradeFromPercentage` as a
  function parameter; the record types carry the fields `main.go` reads and
  writes.
-/

namespace GoReportCard

/-! ## Numbers -/

/-- The value of a `float64` expression: a rational, or one of the values a
division by zero produces. -/
inductive F64 where
  | fin (q : ℚ)
  | posInf
  | negInf
  | nan
  deriving DecidableEq

/-- The quotient `a / b` of two finite floats, as in `total /= totalWeight`:
exact when `b` is not zero; with `b = 0` it is NaN for `a = 0` and
the infinity of the sign of `a` otherwise. -/
def F64.div (a b : ℚ) : F64 :=
  if b = 0 then
    if a = 0 then F64.nan else if 0 < a then F64.posInf else F64.negInf
  else F64.fin (a / b)

/-- The product `x * k` with a finite constant `k`, as in `total * 100`. -/
def F64.mul (x : F64) (k : ℚ) : F64 :=
  match x with
  | F64.fin q => F64.fin (q * k)
  | F64.nan => F64.nan
  | F64.posInf => if k = 0 then F64.nan else if 0 < k then F64.posInf else F64.negInf
  | F64.negInf => if k = 0 then F64.nan else if 0 < k then F64.negInf else F64.posInf

/-- The rounded product `x * k` of `float64` arithmetic, as in
`result.Average*100` at main.go line 118: `rnd` takes the exact product of two
finite numbers to the `float64` that the multiplication returns. -/
def F64.fmul (rnd : ℚ → F64) (x : F64) (k : ℚ) : F64 :=
  match x with
  | F64.fin q => rnd (q * k)
  | F64.nan => F64.nan
  | F64.posInf => if k = 0 then F64.nan else if 0 < k then F64.posInf else F64.negInf
  | F64.negInf => if k = 0 then F64.nan else if 0 < k then F64.negInf else F64.posInf

/-- The comparison `x < y` of two `float64` values; false when either is NaN. -/
def F64.lt (x y : F64) : Bool :=
  match x, y with
  | F64.nan, _ => false
  | _, F64.nan => false
  | F64.fin a, F64.fin b => decide (a < b)
  | F64.fin _, F64.posInf => true
  | F64.fin _, F64.negInf => false
  | F64.negInf, F64.negInf => false
  | F64.negInf, _ => true
  | F64.posInf, _ => false

/-- The comparison `x >= y` of two `float64` values; false when either is NaN. -/
def F64.ge (x y : F64) : Bool :=
  match x, y with
  | F64.nan, _ => false
  | _, F64.nan => false
  | F64.fin a, F64.fin b => decide (b ≤ a)
  | F64.fin _, F64.posInf => false
  | F64.fin _, F64.negInf => true
  | F64.posInf, _ => true
  | F64.negInf, F64.negInf => true
  | F64.negInf, _ => false

/-! ## Records of package `check`, as `main.go` uses them -/

/-- One issue: `e.LineNumber`, `e.ErrorString` (main.go line 112). -/
structure Error where
  LineNumber : Int
  ErrorString : String
  deriving DecidableEq

/-- A file and its issues: `f.Filename`, `f.Errors` (main.go lines 78, 110, 111). -/
structure FileSummary where
  Filename : String
  Errors : List Error
  deriving DecidableEq

/-- The record `check.Score`, with the six fields set at main.go lines 54-61. -/
structure Score where
  Name : String
  Description : String
  FileSummaries : List FileSummary
  Weight : ℚ
  Percentage : ℚ
  Error : String
  deriving DecidableEq

/-- The record `check.ChecksResult`; the defaults are Go zero values, so `{}` is
`check.ChecksResult{}`. -/
structure ChecksResult where
  Checks : List Score := []
  Average : F64 := F64.fin 0
  Grade : String := ""
  Files : Nat := 0
  Issues : Nat := 0
  DidError : Bool := false
  deriving DecidableEq

/-- What `check.GoFiles(dir)` returned: `filenames, skipped, err`. -/
structure GoFilesResult where
  filenames : List String
  skipped : List String
  err : Option String

/-! ## Sorting: `sort.Sort(check.ByWeight(resp.Checks))` -/

/-- Modelled from the spec: `check.ByWeight` (package `check` is not under src/)
sorts scores by weight descending, so its `Less(i, j)` is
`a[i].Weight > a[j].Weight`. -/
def ByWeight.Less (ai aj : Score) : Bool := decide (aj.Weight < ai.Weight)

/-- The inner loop of the standard library `insertionSort`,
`for j := i; j > a && data.Less(j, j-1); j-- { data.Swap(j, j-1) }`.
`x` is the element that starts at index `i`; `pre` lists the elements to its left,
nearest first (`a[i-1]`, `a[i-2]`, ...).  The result lists the indices `i`, `i-1`, ..., `0`
after the loop, again from the right. -/
def sinkLeft (x : Score) : List Score → List Score
  | [] => [x]
  | y :: pre => if ByWeight.Less x y then y :: sinkLeft x pre else x :: y :: pre

/-- The standard library `insertionSort(data, 0, n)`: the outer loop takes the
elements from left to right and sinks each into the part already ordered. -/
def insertionSort (data : List Score) : List Score :=
  (data.foldl (fun pre x => sinkLeft x pre) []).reverse

/-- The call `sort.Sort(check.ByWeight(resp.Checks))`.  On a slice of at most six
elements, and `run` sorts the scores of its six analyzers, `sort.Sort` does
nothing but call `insertionSort` (since Go 1.19 that holds up to twelve elements). -/
def sortSort (data : List Score) : List Score := insertionSort data

/-! ## `run` -/

/-- The statement `issues[k] = true` on the key set of the map. -/
def mapSet (issues : List String) (k : String) : List String :=
  if k ∈ issues then issues else issues ++ [k]

/-- The variables the collection loop updates (main.go lines 66-71). -/
structure LoopState where
  resp : ChecksResult
  total : ℚ
  totalWeight : ℚ
  issues : List String

/-- One pass of the loop body, main.go lines 73-82, for the received score `s`. -/
def loopBody (st : LoopState) (s : Score) : LoopState :=
  let resp := { st.resp with Checks := st.resp.Checks ++ [s] }
  let total := st.total + s.Percentage * s.Weight
  let totalWeight := st.totalWeight + s.Weight
  let issues := s.FileSummaries.foldl (fun m fs => mapSet m fs.Filename) st.issues
  let resp := if s.Error ≠ "" then { resp with DidError := true } else resp
  { resp := resp, total := total, totalWeight := totalWeight, issues := issues }

/-- The state before the first pass, main.go lines 66-71: `resp` has `Files` set to
the number `n` of filenames, the two sums are zero and the map is empty. -/
def initState (n : Nat) : LoopState :=
  { resp := { Files := n }, total := 0, totalWeight := 0, issues := [] }

/-- What a call of `run` did: the number of `go` statements it executed, and the
two values it returned. -/
structure RunOutcome where
  dispatched : Nat
  resp : ChecksResult
  err : Option String

/-- The function `run` (main.go lines 19-92).  `gf` is what `check.GoFiles(dir)`
returned and `arrived` the scores in the order of their receipt from `ch`, one
for each analyzer started.  `check.RenameFiles` and the deferred
`check.RevertFiles` act on the file system and on the log only, and no returned
value depends on them. -/
def run (GradeFromPercentage : F64 → String) (gf : GoFilesResult)
    (arrived : List Score) : RunOutcome :=
  match gf.err with
  | some e => { dispatched := 0, resp := {}, err := some ("could not get filenames: " ++ e) }
  | none =>
    if gf.filenames.length = 0 then
      { dispatched := 0, resp := {}, err := some "no .go files found" }
    else
      let st := arrived.foldl loopBody (initState gf.filenames.length)
      let total := F64.div st.total st.totalWeight
      let resp := { st.resp with
        Checks := sortSort st.resp.Checks
        Average := total
        Issues := st.issues.length
        Grade := GradeFromPercentage (total.mul 100) }
      { dispatched := arrived.length, resp := resp, err := none }

/-- The value of `*th` once `flag.Parse()` has returned (main.go line 16): the
`float64` that the flag package stored for `-t` when the command line has one,
which may be NaN or an infinity, and 90 otherwise. -/
def th (t : Option F64) : F64 := t.getD (F64.fin 90)

/-- The exit status that main.go lines 98-120 produce from the two values `run`
returned: `log.Fatalf` ends the process with status 1, `os.Exit(1)` likewise, and
a return from `main` is status 0.  The printed lines are left out. -/
def exitStatus (rnd : ℚ → F64) (result : ChecksResult) (err : Option String)
    (t : Option F64) : Nat :=
  match err with
  | some _ => 1
  | none => if (F64.fmul rnd result.Average 100).lt (th t) then 1 else 0

/-- The exit status of `main` (main.go lines 94-121) once `flag.Parse()` has
returned, `t` being the value it stored for `-t` if any: the call of `run`
followed by lines 98-120. -/
def main (rnd : ℚ → F64) (GradeFromPercentage : F64 → String) (gf : GoFilesResult)
    (arrived : List Score) (t : Option F64) : Nat :=
  let out := run GradeFromPercentage gf arrived
  exitStatus rnd out.resp out.err t

/-! ## Sample data -/

/-- A grade function for the examples: the table of package `check` is not part
of the repository. -/
def sampleGrade (p : F64) : String :=
  if p.ge (F64.fin 90) then "A" else "F"

/-- A rounding for the examples: the one that returns the exact product. -/
def noRounding (q : ℚ) : F64 := F64.fin q

/-- A successful discovery of two files. -/
def twoFiles : GoFilesResult :=
  { filenames := ["main.go", "util.go"], skipped := [], err := none }

/-- A score with the given name, weight, percentage, flagged files and error. -/
def mkScore (name : String) (w p : ℚ) (files : List String) (e : String) : Score :=
  { Name := name, Description := "", Weight := w, Percentage := p, Error := e,
    FileSummaries := files.map (fun f => { Filename := f, Errors := [] }) }

/-- Three scores with weights 3, 1, 1 and percentages 1, 0, 1; the second
carries an error. -/
def threeScores : List Score :=
  [mkScore "first" 3 1 [] "", mkScore "second" 1 0 [] "tool missing", mkScore "third" 1 1 [] ""]

/-- Two scores that each flag only `a.go`. -/
def twoOnSameFile : List Score :=
  [mkScore "first" 1 1 ["a.go"] "", mkScore "second" 1 (1 / 2) ["a.go"] ""]

/-- Six scores in one order of arrival; `golint` and `gocyclo` have equal weight. -/
def arrivalA : List Score :=
  [mkScore "golint" 10 1 [] "", mkScore "gocyclo" 10 1 [] "", mkScore "gofmt" 30 1 [] "",
   mkScore "go_vet" 25 1 [] "", mkScore "misspell" 1 1 [] "", mkScore "ineffassign" 5 1 [] ""]

/-- The scores of `arrivalA` with the first two in the other order of arrival. -/
def arrivalB : List Score :=
  [mkScore "gocyclo" 10 1 [] "", mkScore "golint" 10 1 [] "", mkScore "gofmt" 30 1 [] "",
   mkScore "go_vet" 25 1 [] "", mkScore "misspell" 1 1 [] "", mkScore "ineffassign" 5 1 [] ""]

/-- Six scores with pairwise different weights, and a second order of arrival. -/
def distinctA : List Score :=
  [mkScore "golint" 10 1 [] "", mkScore "gocyclo" 15 1 [] "", mkScore "gofmt" 30 1 [] "",
   mkScore "go_vet" 25 1 [] "", mkScore "misspell" 1 1 [] "", mkScore "ineffassign" 5 1 [] ""]

/-- The scores of `distinctA` with the first two in the other order of arrival. -/
def distinctB : List Score :=
  [mkScore "gocyclo" 15 1 [] "", mkScore "golint" 10 1 [] "", mkScore "gofmt" 30 1 [] "",
   mkScore "go_vet" 25 1 [] "", mkScore "misspell" 1 1 [] "", mkScore "ineffassign" 5 1 [] ""]

/-- Six scores whose weights are all zero. -/
def zeroWeights : List Score :=
  [mkScore "gofmt" 0 1 [] "", mkScore "go_vet" 0 1 [] "", mkScore "golint" 0 1 [] "",
   mkScore "gocyclo" 0 1 [] "", mkScore "misspell" 0 1 [] "", mkScore "ineffassign" 0 1 [] ""]

/-- Six scores whose weights are all zero, with various percentages; one carries
an error. -/
def zeroWeightsMixed : List Score :=
  [mkScore "gofmt" 0 1 [] "", mkScore "go_vet" 0 (1 / 2) ["a.go"] "", mkScore "golint" 0 0 [] "",
   mkScore "gocyclo" 0 (9 / 10) [] "timeout", mkScore "misspell" 0 1 [] "",
   mkScore "ineffassign" 0 (3 / 4) ["b.go"] ""]

/-- The filenames of all file summaries of all scores, with repetitions: the
list whose distinct members the report counts. -/
def flaggedNames : List Score → List String
  | [] => []
  | s :: rest => s.FileSummaries.map (fun fs => fs.Filename) ++ flaggedNames rest

/-- The sum of the weights. -/
def weightSum (l : List Score) : ℚ := (l.map (fun s => s.Weight)).sum

/-- The sum of the products percentage times weight. -/
def weightedSum (l : List Score) : ℚ := (l.map (fun s => s.Percentage * s.Weight)).sum

/-! ## The collection loop -/

theorem mapSet_nodup (m : List String) (k : String) (h : m.Nodup) : (mapSet m k).Nodup := by
  unfold mapSet
  split
  · exact h
  · rename_i hk
    rw [List.nodup_append]
    refine ⟨h, List.nodup_singleton k, ?_⟩
    intro a ha hb
    simp only [List.mem_singleton] at hb
    subst hb
    exact hk ha

theorem mem_mapSet (m : List String) (k x : String) : x ∈ mapSet m k ↔ x ∈ m ∨ x = k := by
  unfold mapSet
  split
  · rename_i hk
    constructor
    · intro h; exact Or.inl h
    · rintro (h | h)
      · exact h
      · subst h; exact hk
  · simp

theorem foldl_mapSet_nodup (fss : List FileSummary) (m : List String) (h : m.Nodup) :
    (fss.foldl (fun m fs => mapSet m fs.Filename) m).Nodup := by
  induction fss generalizing m with
  | nil => exact h
  | cons fs rest ih => exact ih _ (mapSet_nodup m fs.Filename h)

theorem mem_foldl_mapSet (fss : List FileSummary) (m : List String) (x : String) :
    x ∈ fss.foldl (fun m fs => mapSet m fs.Filename) m ↔
      x ∈ m ∨ x ∈ fss.map (fun fs => fs.Filename) := by
  induction fss generalizing m with
  | nil => simp
  | cons fs rest ih =>
    simp only [List.foldl_cons, List.map_cons, List.mem_cons]
    rw [ih, mem_mapSet]
    tauto

theorem foldl_loopBody_checks (l : List Score) (st : LoopState) :
    (l.foldl loopBody st).resp.Checks = st.resp.Checks ++ l := by
  induction l generalizing st with
  | nil => simp
  | cons s rest ih =>
    rw [List.foldl_cons, ih]
    unfold loopBody
    by_cases h : s.Error = "" <;> simp [h]

theorem foldl_loopBody_files (l : List Score) (st : LoopState) :
    (l.foldl loopBody st).resp.Files = st.resp.Files := by
  induction l generalizing st with
  | nil => simp
  | cons s rest ih =>
    rw [List.foldl_cons, ih]
    unfold loopBody
    by_cases h : s.Error = "" <;> simp [h]

theorem foldl_loopBody_total (l : List Score) (st : LoopState) :
    (l.foldl loopBody st).total = st.total + weightedSum l := by
  induction l generalizing st with
  | nil => simp [weightedSum]
  | cons s rest ih =>
    rw [List.foldl_cons, ih]
    simp only [loopBody, weightedSum, List.map_cons, List.sum_cons]
    ring

theorem foldl_loopBody_totalWeight (l : List Score) (st : LoopState) :
    (l.foldl loopBody st).totalWeight = st.totalWeight + weightSum l := by
  induction l generalizing st with
  | nil => simp [weightSum]
  | cons s rest ih =>
    rw [List.foldl_cons, ih]
    simp only [loopBody, weightSum, List.map_cons, List.sum_cons]
    ring

theorem foldl_loopBody_didError (l : List Score) (st : LoopState) :
    (l.foldl loopBody st).resp.DidError = true ↔
      st.resp.DidError = true ∨ ∃ s ∈ l, s.Error ≠ "" := by
  induction l generalizing st with
  | nil => simp
  | cons s rest ih =>
    rw [List.foldl_cons, ih]
    unfold loopBody
    by_cases h : s.Error = "" <;> simp [h]

theorem foldl_loopBody_issues_nodup (l : List Score) (st : LoopState) (h : st.issues.Nodup) :
    (l.foldl loopBody st).issues.Nodup := by
  induction l generalizing st with
  | nil => exact h
  | cons s rest ih =>
    rw [List.foldl_cons]
    apply ih
    exact foldl_mapSet_nodup _ _ h

theorem mem_foldl_loopBody_issues (l : List Score) (st : LoopState) (x : String) :
    x ∈ (l.foldl loopBody st).issues ↔ x ∈ st.issues ∨ x ∈ flaggedNames l := by
  induction l generalizing st with
  | nil => simp [flaggedNames]
  | cons s rest ih =>
    rw [List.foldl_cons, ih]
    simp only [loopBody, flaggedNames, List.mem_append]
    rw [mem_foldl_mapSet]
    tauto

theorem issues_length (l : List Score) (n : Nat) :
    ((l.foldl loopBody (initState n)).issues).length = (flaggedNames l).toFinset.card := by
  have hnd := foldl_loopBody_issues_nodup l (initState n) (by simp [initState])
  rw [← List.toFinset_card_of_nodup hnd]
  congr 1
  ext x
  simp [mem_foldl_loopBody_issues, initState]

theorem mem_flaggedNames (l : List Score) (x : String) :
    x ∈ flaggedNames l ↔ ∃ s ∈ l, ∃ fs ∈ s.FileSummaries, fs.Filename = x := by
  induction l with
  | nil => simp [flaggedNames]
  | cons s rest ih =>
    simp only [flaggedNames, List.mem_append, ih, List.mem_map, List.mem_cons]
    constructor
    · rintro (⟨fs, hfs, rfl⟩ | ⟨t, ht, fs, hfs, rfl⟩)
      · exact ⟨s, Or.inl rfl, fs, hfs, rfl⟩
      · exact ⟨t, Or.inr ht, fs, hfs, rfl⟩
    · rintro ⟨t, (rfl | ht), fs, hfs, rfl⟩
      · exact Or.inl ⟨fs, hfs, rfl⟩
      · exact Or.inr ⟨t, ht, fs, hfs, rfl⟩

/-! ## The sort -/

theorem sinkLeft_perm (x : Score) (pre : List Score) : (sinkLeft x pre).Perm (x :: pre) := by
  induction pre with
  | nil => simp [sinkLeft]
  | cons y pre ih =>
    unfold sinkLeft
    split
    · exact ((List.Perm.cons y ih).trans (List.Perm.swap x y pre))
    · exact List.Perm.refl _

theorem foldl_sinkLeft_perm (l acc : List Score) :
    (l.foldl (fun pre x => sinkLeft x pre) acc).Perm (l ++ acc) := by
  induction l generalizing acc with
  | nil => simp
  | cons x rest ih =>
    rw [List.foldl_cons]
    refine (ih (sinkLeft x acc)).trans ?_
    refine ((List.Perm.append_left rest (sinkLeft_perm x acc)).trans ?_)
    simp

theorem sortSort_perm (l : List Score) : (sortSort l).Perm l := by
  unfold sortSort insertionSort
  refine (List.reverse_perm _).trans ?_
  simpa using foldl_sinkLeft_perm l []

theorem sinkLeft_sorted (x : Score) (pre : List Score)
    (h : pre.Pairwise (fun a b => a.Weight ≤ b.Weight)) :
    (sinkLeft x pre).Pairwise (fun a b => a.Weight ≤ b.Weight) := by
  induction pre with
  | nil => simp [sinkLeft]
  | cons y pre ih =>
    rw [List.pairwise_cons] at h
    unfold sinkLeft
    split
    · rename_i hlt
      simp only [ByWeight.Less, decide_eq_true_eq] at hlt
      rw [List.pairwise_cons]
      refine ⟨?_, ih h.2⟩
      intro b hb
      have hb2 := (sinkLeft_perm x pre).subset hb
      rcases List.mem_cons.mp hb2 with hbx | hbp
      · subst hbx; exact le_of_lt hlt
      · exact h.1 b hbp
    · rename_i hlt
      simp only [ByWeight.Less, decide_eq_true_eq, not_lt] at hlt
      rw [List.pairwise_cons]
      refine ⟨?_, List.pairwise_cons.mpr h⟩
      intro b hb
      rcases List.mem_cons.mp hb with hby | hbp
      · subst hby; exact hlt
      · exact le_trans hlt (h.1 b hbp)

theorem foldl_sinkLeft_sorted (l acc : List Score)
    (h : acc.Pairwise (fun a b => a.Weight ≤ b.Weight)) :
    (l.foldl (fun pre x => sinkLeft x pre) acc).Pairwise (fun a b => a.Weight ≤ b.Weight) := by
  induction l generalizing acc with
  | nil => exact h
  | cons x rest ih => exact ih _ (sinkLeft_sorted x acc h)

theorem sortSort_sorted (l : List Score) :
    (sortSort l).Pairwise (fun a b => b.Weight ≤ a.Weight) := by
  unfold sortSort insertionSort
  rw [List.pairwise_reverse]
  exact foldl_sinkLeft_sorted l [] List.Pairwise.nil

/-! ## The report of a run whose discovery succeeded -/

theorem run_of_discovered (G : F64 → String) (gf : GoFilesResult) (arrived : List Score)
    (herr : gf.err = none) (hfiles : gf.filenames ≠ []) :
    run G gf arrived =
      { dispatched := arrived.length
        resp :=
          { (arrived.foldl loopBody (initState gf.filenames.length)).resp with
            Checks := sortSort arrived
            Average := F64.div (weightedSum arrived) (weightSum arrived)
            Issues := (flaggedNames arrived).toFinset.card
            Grade := G ((F64.div (weightedSum arrived) (weightSum arrived)).mul 100) }
        err := none } := by
  have hlen : ¬ gf.filenames.length = 0 := by
    intro h; exact hfiles (List.length_eq_zero.mp h)
  unfold run
  rw [herr]
  simp only [hlen, if_false]
  rw [foldl_loopBody_checks, foldl_loopBody_total, foldl_loopBody_totalWeight, issues_length]
  simp [initState]

theorem run_of_failed (G : F64 → String) (gf : GoFilesResult) (arrived : List Score)
    (h : gf.err ≠ none ∨ gf.filenames = []) :
    (run G gf arrived).dispatched = 0 ∧ (run G gf arrived).resp = {} ∧
      (run G gf arrived).err ≠ none := by
  unfold run
  cases herr : gf.err with
  | some e => simp
  | none =>
    rcases h with h | h
    · exact absurd herr h
    · simp [h]

/-! ## Bounds on the two sums -/

theorem weightSum_of_zero (l : List Score) (hz : ∀ s ∈ l, s.Weight = 0) : weightSum l = 0 := by
  induction l with
  | nil => simp [weightSum]
  | cons s rest ih =>
    have hs : s.Weight = 0 := hz s (List.mem_cons_self s rest)
    have hr := ih (fun t ht => hz t (List.mem_cons_of_mem s ht))
    unfold weightSum at hr ⊢
    simp [hs, hr]

theorem weightedSum_of_zero (l : List Score) (hz : ∀ s ∈ l, s.Weight = 0) :
    weightedSum l = 0 := by
  induction l with
  | nil => simp [weightedSum]
  | cons s rest ih =>
    have hs : s.Weight = 0 := hz s (List.mem_cons_self s rest)
    have hr := ih (fun t ht => hz t (List.mem_cons_of_mem s ht))
    unfold weightedSum at hr ⊢
    simp [hs, hr]

theorem weightSum_pos (l : List Score) (hne : l ≠ []) (hw : ∀ s ∈ l, 0 < s.Weight) :
    0 < weightSum l := by
  induction l with
  | nil => exact absurd rfl hne
  | cons s rest ih =>
    simp only [weightSum, List.map_cons, List.sum_cons]
    have hs : 0 < s.Weight := hw s (List.mem_cons_self s rest)
    by_cases hr : rest = []
    · subst hr; simpa using hs
    · have := ih hr (fun t ht => hw t (List.mem_cons_of_mem s ht))
      unfold weightSum at this
      linarith

theorem weightedSum_bounds (l : List Score) (hw : ∀ s ∈ l, 0 < s.Weight)
    (hp : ∀ s ∈ l, 0 ≤ s.Percentage ∧ s.Percentage ≤ 1) :
    0 ≤ weightedSum l ∧ weightedSum l ≤ weightSum l := by
  induction l with
  | nil => simp [weightedSum, weightSum]
  | cons s rest ih =>
    have hs : 0 < s.Weight := hw s (List.mem_cons_self s rest)
    have hps := hp s (List.mem_cons_self s rest)
    have ih2 := ih (fun t ht => hw t (List.mem_cons_of_mem s ht))
      (fun t ht => hp t (List.mem_cons_of_mem s ht))
    unfold weightedSum weightSum at ih2 ⊢
    simp only [List.map_cons, List.sum_cons]
    have h1 : 0 ≤ s.Percentage * s.Weight := mul_nonneg hps.1 (le_of_lt hs)
    have h2 : s.Percentage * s.Weight ≤ s.Weight := by
      have := mul_le_mul_of_nonneg_right hps.2 (le_of_lt hs)
      simpa using this
    constructor
    · linarith [ih2.1]
    · linarith [ih2.2]

/-! ## The claims -/

/-- C1: after a successful discovery, for every list of collected scores whose
weights do not sum to zero (such a list is not empty), the Average of the report
is the sum of Percentage times Weight over all scores divided by the sum of the
weights; the sums run over every score, whatever its Error string. -/
theorem run_average_weighted (G : F64 → String) (gf : GoFilesResult) (arrived : List Score)
    (herr : gf.err = none) (hfiles : gf.filenames ≠ []) (hw : weightSum arrived ≠ 0) :
    (run G gf arrived).resp.Average = F64.fin (weightedSum arrived / weightSum arrived) ∧
      arrived ≠ [] := by
  rw [run_of_discovered G gf arrived herr hfiles]
  refine ⟨by simp [F64.div, hw], ?_⟩
  rintro rfl
  exact hw (by simp [weightSum])

/-- Witness of C1: weights 3, 1, 1 and percentages 1, 0, 1, the second score with
an error, give the Average 4/5. -/
theorem run_average_weighted_witness :
    (run sampleGrade twoFiles threeScores).resp.Average = F64.fin (4 / 5) := by
  have h := (run_average_weighted sampleGrade twoFiles threeScores rfl (by simp [twoFiles])
    (by norm_num [weightSum, threeScores, mkScore])).1
  rw [h]
  norm_num [weightedSum, weightSum, threeScores, mkScore]

/-- C3: after a successful discovery the Issues field is the number of distinct
filenames among the file summaries of all scores: the cardinality of the set of
names that occur in a summary of some score. -/
theorem run_issues_distinct (G : F64 → String) (gf : GoFilesResult) (arrived : List Score)
    (herr : gf.err = none) (hfiles : gf.filenames ≠ []) :
    (run G gf arrived).resp.Issues = (flaggedNames arrived).toFinset.card ∧
      ∀ x, x ∈ (flaggedNames arrived).toFinset ↔
        ∃ s ∈ arrived, ∃ fs ∈ s.FileSummaries, fs.Filename = x := by
  rw [run_of_discovered G gf arrived herr hfiles]
  refine ⟨rfl, ?_⟩
  intro x
  rw [List.mem_toFinset, mem_flaggedNames]

/-- Witness of C3: two scores that each list only `a.go` give Issues = 1. -/
theorem run_issues_distinct_witness :
    (run sampleGrade twoFiles twoOnSameFile).resp.Issues = 1 := by
  have h := (run_issues_distinct sampleGrade twoFiles twoOnSameFile rfl (by simp [twoFiles])).1
  rw [h]
  simp [flaggedNames, twoOnSameFile, mkScore]

/-- C4: after a successful discovery DidError is true if and only if some
collected score has a non-empty Error string. -/
theorem run_didError_iff (G : F64 → String) (gf : GoFilesResult) (arrived : List Score)
    (herr : gf.err = none) (hfiles : gf.filenames ≠ []) :
    (run G gf arrived).resp.DidError = true ↔ ∃ s ∈ arrived, s.Error ≠ "" := by
  rw [run_of_discovered G gf arrived herr hfiles]
  simp only []
  rw [foldl_loopBody_didError]
  simp [initState]

/-- Witness of C4: the second of the three scores carries an error, and DidError
is set. -/
theorem run_didError_iff_witness :
    (run sampleGrade twoFiles threeScores).resp.DidError = true :=
  (run_didError_iff sampleGrade twoFiles threeScores rfl (by simp [twoFiles])).mpr
    ⟨mkScore "second" 1 0 [] "tool missing", by simp [threeScores], by simp [mkScore]⟩

/-- C2, as stated, fails: six scores whose weights are all zero have weight sum
zero, and `run` returns no error; it divides, and the Average of the report is
NaN. -/
theorem run_zero_weight_returns_nan :
    weightSum zeroWeights = 0 ∧ (run sampleGrade twoFiles zeroWeights).err = none ∧
      (run sampleGrade twoFiles zeroWeights).resp.Average = F64.nan := by
  rw [run_of_discovered sampleGrade twoFiles zeroWeights rfl (by simp [twoFiles])]
  norm_num [F64.div, weightedSum, weightSum, zeroWeights, mkScore]

/-- C2, amended: after a successful discovery `run` does not fail on a list of
collected scores whose weights sum to zero: it returns a report and no error.
When every weight is zero, the division is the division of zero by zero and the
Average of the report is NaN. -/
theorem run_zero_weight_divides (G : F64 → String) (gf : GoFilesResult)
    (arrived : List Score) (herr : gf.err = none) (hfiles : gf.filenames ≠ []) :
    (weightSum arrived = 0 → (run G gf arrived).err = none) ∧
      ((∀ s ∈ arrived, s.Weight = 0) →
        weightSum arrived = 0 ∧ (run G gf arrived).err = none ∧
          (run G gf arrived).resp.Average = F64.nan) := by
  rw [run_of_discovered G gf arrived herr hfiles]
  refine ⟨fun _ => rfl, ?_⟩
  intro hz
  have hw : weightSum arrived = 0 := weightSum_of_zero arrived hz
  have hp : weightedSum arrived = 0 := weightedSum_of_zero arrived hz
  exact ⟨hw, rfl, by simp [F64.div, hw, hp]⟩

/-- Witness of C2 amended: six scores of weight zero with different percentages,
one of them with an error, give no error and the Average NaN. -/
theorem run_zero_weight_divides_witness :
    weightSum zeroWeightsMixed = 0 ∧ (run sampleGrade twoFiles zeroWeightsMixed).err = none ∧
      (run sampleGrade twoFiles zeroWeightsMixed).resp.Average = F64.nan :=
  (run_zero_weight_divides sampleGrade twoFiles zeroWeightsMixed rfl (by simp [twoFiles])).2
    (by simp [zeroWeightsMixed, mkScore])

/-- C5, as stated, fails: `arrivalA` and `arrivalB` are two orders of arrival of
the same six scores, two of them of equal weight, and the Checks sequences of
the two reports differ. -/
theorem checks_depend_on_arrival :
    arrivalA.Perm arrivalB ∧
      (run sampleGrade twoFiles arrivalA).resp.Checks ≠
        (run sampleGrade twoFiles arrivalB).resp.Checks := by
  refine ⟨List.Perm.swap _ _ _, ?_⟩
  rw [run_of_discovered sampleGrade twoFiles arrivalA rfl (by simp [twoFiles]),
    run_of_discovered sampleGrade twoFiles arrivalB rfl (by simp [twoFiles])]
  norm_num [sortSort, insertionSort, sinkLeft, ByWeight.Less, arrivalA, arrivalB, mkScore]
  decide

/-- C5, amended: for every two orders of arrival of the same scores, the Checks
sequences of the two reports hold the same scores and show the same sequence of
weights, and they are identical when no two scores have equal weight. -/
theorem checks_arrival_independent (G : F64 → String) (gf : GoFilesResult)
    (a b : List Score) (h : a.Perm b) :
    ((run G gf a).resp.Checks).Perm ((run G gf b).resp.Checks) ∧
      ((run G gf a).resp.Checks).map (fun s => s.Weight) =
        ((run G gf b).resp.Checks).map (fun s => s.Weight) ∧
      ((a.map (fun s => s.Weight)).Nodup →
        (run G gf a).resp.Checks = (run G gf b).resp.Checks) := by
  by_cases hd : gf.err = none ∧ gf.filenames ≠ []
  · rw [run_of_discovered G gf a hd.1 hd.2, run_of_discovered G gf b hd.1 hd.2]
    simp only []
    have hp : (sortSort a).Perm (sortSort b) :=
      ((sortSort_perm a).trans h).trans (sortSort_perm b).symm
    refine ⟨hp, ?_, ?_⟩
    · apply List.eq_of_perm_of_sorted (r := fun x y : ℚ => y ≤ x) (hp.map _)
      · exact List.pairwise_map.mpr (sortSort_sorted a)
      · exact List.pairwise_map.mpr (sortSort_sorted b)
    · intro hnd
      have strict : ∀ l : List Score, l.Perm a →
          (sortSort l).Pairwise (fun x y => y.Weight < x.Weight) := by
        intro l hl
        have hnd2 : ((sortSort l).map (fun s => s.Weight)).Nodup :=
          ((((sortSort_perm l).trans hl).map _).nodup_iff).mpr hnd
        have hne : (sortSort l).Pairwise (fun x y => x.Weight ≠ y.Weight) :=
          List.pairwise_map.mp hnd2
        exact ((sortSort_sorted l).and hne).imp (fun hxy => lt_of_le_of_ne hxy.1 (Ne.symm hxy.2))
      have anti : IsAntisymm Score (fun x y => y.Weight < x.Weight) :=
        ⟨fun x y hxy hyx => absurd hxy (not_lt_of_gt hyx)⟩
      exact List.eq_of_perm_of_sorted hp (strict a (List.Perm.refl a)) (strict b h.symm)
  · have hf : gf.err ≠ none ∨ gf.filenames = [] := by
      by_cases he : gf.err = none
      · right
        by_contra hne
        exact hd ⟨he, hne⟩
      · exact Or.inl he
    rw [(run_of_failed G gf a hf).2.1, (run_of_failed G gf b hf).2.1]
    simp

/-- Witness of C5 amended: two orders of arrival of six scores with pairwise
different weights give the same Checks sequence. -/
theorem checks_arrival_independent_witness :
    distinctA.Perm distinctB ∧
      (run sampleGrade twoFiles distinctA).resp.Checks =
        (run sampleGrade twoFiles distinctB).resp.Checks :=
  ⟨List.Perm.swap _ _ _,
    (checks_arrival_independent sampleGrade twoFiles distinctA distinctB
      (List.Perm.swap _ _ _)).2.2 (by norm_num [distinctA, mkScore])⟩

/-- C6: after a successful discovery the Checks sequence of the report is a
permutation of the collected scores, so it has their number and holds each
score unchanged, and each score in it weighs at least as much as every score
after it. -/
theorem checks_sorted_perm (G : F64 → String) (gf : GoFilesResult) (arrived : List Score)
    (herr : gf.err = none) (hfiles : gf.filenames ≠ []) :
    ((run G gf arrived).resp.Checks).Perm arrived ∧
      ((run G gf arrived).resp.Checks).length = arrived.length ∧
      ((run G gf arrived).resp.Checks).Pairwise (fun s t => t.Weight ≤ s.Weight) := by
  rw [run_of_discovered G gf arrived herr hfiles]
  exact ⟨sortSort_perm arrived, (sortSort_perm arrived).length_eq, sortSort_sorted arrived⟩

/-- Witness of C6: the report for the six scores of `arrivalA`. -/
theorem checks_sorted_perm_witness :
    ((run sampleGrade twoFiles arrivalA).resp.Checks).Perm arrivalA ∧
      ((run sampleGrade twoFiles arrivalA).resp.Checks).length = 6 ∧
      ((run sampleGrade twoFiles arrivalA).resp.Checks).Pairwise
        (fun s t => t.Weight ≤ s.Weight) :=
  checks_sorted_perm sampleGrade twoFiles arrivalA rfl (by simp [twoFiles])

/-- C7: the Average that the aggregation computes is the same for a list of
collected scores and for every permutation of it. -/
theorem average_perm_invariant (G : F64 → String) (gf : GoFilesResult)
    (a b : List Score) (h : a.Perm b) :
    (run G gf a).resp.Average = (run G gf b).resp.Average := by
  have h1 : weightedSum a = weightedSum b := (h.map _).sum_eq
  have h2 : weightSum a = weightSum b := (h.map _).sum_eq
  unfold run
  cases gf.err with
  | some e => rfl
  | none =>
    simp only []
    split
    · rfl
    · simp only [foldl_loopBody_total, foldl_loopBody_totalWeight, h1, h2]

/-- Witness of C7: the two orders of arrival `arrivalA` and `arrivalB` give the
same Average. -/
theorem average_perm_invariant_witness :
    (run sampleGrade twoFiles arrivalA).resp.Average =
      (run sampleGrade twoFiles arrivalB).resp.Average :=
  average_perm_invariant sampleGrade twoFiles arrivalA arrivalB (List.Perm.swap _ _ _)

/-- C8: when file discovery returns an error or no filename, `run` returns an
error and the empty ChecksResult, has started no analyzer, and its outcome does
not depend on any score; when discovery succeeds with at least one filename,
`run` returns a report with no error whose Files is the number of filenames. -/
theorem run_discovery (G : F64 → String) (gf : GoFilesResult) (arrived : List Score) :
    ((gf.err ≠ none ∨ gf.filenames = []) →
        (run G gf arrived).err ≠ none ∧ (run G gf arrived).resp = {} ∧
          (run G gf arrived).dispatched = 0 ∧
          (run G gf arrived).err = (run G gf []).err) ∧
      (gf.err = none → gf.filenames ≠ [] →
        (run G gf arrived).err = none ∧
          (run G gf arrived).resp.Files = gf.filenames.length) := by
  constructor
  · intro h
    refine ⟨(run_of_failed G gf arrived h).2.2, (run_of_failed G gf arrived h).2.1,
      (run_of_failed G gf arrived h).1, ?_⟩
    unfold run
    cases herr : gf.err with
    | some e => rfl
    | none =>
      rcases h with h | h
      · exact absurd herr h
      · simp [h]
  · intro herr hfiles
    rw [run_of_discovered G gf arrived herr hfiles]
    refine ⟨rfl, ?_⟩
    simp only []
    rw [foldl_loopBody_files]
    rfl

/-- Witness of C8: a failed listing, an empty listing, and a listing of two files. -/
theorem run_discovery_witness :
    ((run sampleGrade { filenames := [], skipped := [], err := some "permission denied" }
        threeScores).err ≠ none ∧
      (run sampleGrade { filenames := [], skipped := [], err := some "permission denied" }
        threeScores).resp = {}) ∧
      ((run sampleGrade { filenames := [], skipped := [], err := none } threeScores).err ≠ none ∧
        (run sampleGrade { filenames := [], skipped := [], err := none }
          threeScores).dispatched = 0) ∧
      ((run sampleGrade twoFiles threeScores).err = none ∧
        (run sampleGrade twoFiles threeScores).resp.Files = 2) := by
  refine ⟨?_, ?_, ?_⟩
  · have h := (run_discovery sampleGrade
      { filenames := [], skipped := [], err := some "permission denied" } threeScores).1
      (Or.inl (by simp))
    exact ⟨h.1, h.2.1⟩
  · have h := (run_discovery sampleGrade
      { filenames := [], skipped := [], err := none } threeScores).1 (Or.inr rfl)
    exact ⟨h.1, h.2.2.1⟩
  · exact (run_discovery sampleGrade twoFiles threeScores).2 rfl (by simp [twoFiles])

/-- C9, as stated, fails, in two ways.  For six scores of weight zero `run`
returns without error a report whose Average is NaN: Average * 100 >= 90 does
not hold, and `main` exits with status 0.  And with the threshold NaN, which the
flag accepts, and the three scores of Average 4/5, Average * 100 >= t does not
hold either, and `main` exits with status 0. -/
theorem main_exit_zero_on_nan :
    ((run sampleGrade twoFiles zeroWeights).err = none ∧
      (run sampleGrade twoFiles zeroWeights).resp.Average = F64.nan ∧
      (F64.fmul noRounding (run sampleGrade twoFiles zeroWeights).resp.Average 100).ge (th none)
        = false ∧
      main noRounding sampleGrade twoFiles zeroWeights none = 0) ∧
    ((run sampleGrade twoFiles threeScores).err = none ∧
      (F64.fmul noRounding (run sampleGrade twoFiles threeScores).resp.Average 100).ge
        (th (some F64.nan)) = false ∧
      main noRounding sampleGrade twoFiles threeScores (some F64.nan) = 0) := by
  have hz : run sampleGrade twoFiles zeroWeights = _ :=
    run_of_discovered sampleGrade twoFiles zeroWeights rfl (by simp [twoFiles])
  have hdz : F64.div (weightedSum zeroWeights) (weightSum zeroWeights) = F64.nan := by
    norm_num [F64.div, weightedSum, weightSum, zeroWeights, mkScore]
  have ht : run sampleGrade twoFiles threeScores = _ :=
    run_of_discovered sampleGrade twoFiles threeScores rfl (by simp [twoFiles])
  have hdt : F64.div (weightedSum threeScores) (weightSum threeScores) = F64.fin (4 / 5) := by
    norm_num [F64.div, weightedSum, weightSum, threeScores, mkScore]
  unfold main
  rw [hz, ht]
  simp only [hdz, hdt]
  simp [exitStatus, F64.fmul, F64.ge, F64.lt, th, noRounding]

/-- C9, amended: for every report that `run` returns without error and every
threshold, `main` exits with status 1 if the product Average * 100 is below the
threshold and with status 0 otherwise, the threshold being 90 when none is
given.  When neither the product nor the threshold is NaN, that is status 0 if
Average * 100 >= threshold and status 1 otherwise; when one of them is NaN the
status is 0, and Average * 100 >= threshold does not hold.  The statement is
about every report and every rounding of the product. -/
theorem main_exit_status (rnd : ℚ → F64) (result : ChecksResult) (t : Option F64) :
    th none = F64.fin 90 ∧
      (exitStatus rnd result none t = 1 ↔
        (F64.fmul rnd result.Average 100).lt (th t) = true) ∧
      (exitStatus rnd result none t = 0 ↔
        (F64.fmul rnd result.Average 100).lt (th t) = false) ∧
      (F64.fmul rnd result.Average 100 ≠ F64.nan → th t ≠ F64.nan →
        (exitStatus rnd result none t = 0 ↔
          (F64.fmul rnd result.Average 100).ge (th t) = true) ∧
        (exitStatus rnd result none t = 1 ↔
          (F64.fmul rnd result.Average 100).ge (th t) = false)) ∧
      ((F64.fmul rnd result.Average 100 = F64.nan ∨ th t = F64.nan) →
        exitStatus rnd result none t = 0 ∧
          (F64.fmul rnd result.Average 100).ge (th t) = false) ∧
      (∀ (G : F64 → String) (gf : GoFilesResult) (arrived : List Score),
        (run G gf arrived).err = none →
          main rnd G gf arrived t = exitStatus rnd (run G gf arrived).resp none t) := by
  refine ⟨rfl, ?_, ?_, ?_, ?_, ?_⟩
  · unfold exitStatus
    cases F64.fmul rnd result.Average 100 <;> cases th t <;> simp [F64.lt]
  · unfold exitStatus
    cases F64.fmul rnd result.Average 100 <;> cases th t <;> simp [F64.lt]
  · unfold exitStatus
    cases F64.fmul rnd result.Average 100 <;> cases th t <;> simp [F64.lt, F64.ge]
  · unfold exitStatus
    cases F64.fmul rnd result.Average 100 <;> cases th t <;> simp [F64.lt, F64.ge]
  · intro G gf arrived hok
    unfold main
    simp only [hok]

/-- Witness of C9 amended: the Average 4/5 of the three scores, times 100, is
below the default threshold, and `main` exits with status 1. -/
theorem main_exit_status_witness :
    main noRounding sampleGrade twoFiles threeScores none = 1 := by
  have hr : run sampleGrade twoFiles threeScores = _ :=
    run_of_discovered sampleGrade twoFiles threeScores rfl (by simp [twoFiles])
  have hok : (run sampleGrade twoFiles threeScores).err = none := by rw [hr]
  have h := main_exit_status noRounding (run sampleGrade twoFiles threeScores).resp none
  rw [h.2.2.2.2.2 sampleGrade twoFiles threeScores hok]
  refine h.2.1.mpr ?_
  rw [hr]
  norm_num [F64.div, F64.fmul, F64.lt, th, noRounding, weightedSum, weightSum, threeScores,
    mkScore]

/-- C10: after a successful discovery, for every non-empty list of collected
scores with every Weight positive and every Percentage in [0,1], the Average is
a number in [0,1], and the Grade is `GradeFromPercentage` of that number times
100, a number in [0,100]. -/
theorem average_in_unit_interval (G : F64 → String) (gf : GoFilesResult)
    (arrived : List Score) (herr : gf.err = none) (hfiles : gf.filenames ≠ [])
    (hne : arrived ≠ []) (hw : ∀ s ∈ arrived, 0 < s.Weight)
    (hp : ∀ s ∈ arrived, 0 ≤ s.Percentage ∧ s.Percentage ≤ 1) :
    ∃ a : ℚ, (run G gf arrived).resp.Average = F64.fin a ∧ 0 ≤ a ∧ a ≤ 1 ∧
      (run G gf arrived).resp.Grade = G (F64.fin (a * 100)) ∧
      0 ≤ a * 100 ∧ a * 100 ≤ 100 := by
  have hpos := weightSum_pos arrived hne hw
  have hb := weightedSum_bounds arrived hw hp
  have h0 : 0 ≤ weightedSum arrived / weightSum arrived := div_nonneg hb.1 (le_of_lt hpos)
  have h1 : weightedSum arrived / weightSum arrived ≤ 1 := (div_le_one hpos).mpr hb.2
  refine ⟨weightedSum arrived / weightSum arrived, ?_, h0, h1, ?_, by linarith, by linarith⟩
  · rw [run_of_discovered G gf arrived herr hfiles]
    simp [F64.div, ne_of_gt hpos]
  · rw [run_of_discovered G gf arrived herr hfiles]
    simp [F64.div, F64.mul, ne_of_gt hpos]

/-- Witness of C10: the three scores have positive weights and percentages in
[0,1]; their Average is a number in [0,1]. -/
theorem average_in_unit_interval_witness :
    ∃ a : ℚ, (run sampleGrade twoFiles threeScores).resp.Average = F64.fin a ∧ 0 ≤ a ∧ a ≤ 1 ∧
      (run sampleGrade twoFiles threeScores).resp.Grade = sampleGrade (F64.fin (a * 100)) ∧
      0 ≤ a * 100 ∧ a * 100 ≤ 100 :=
  average_in_unit_interval sampleGrade twoFiles threeScores rfl (by simp [twoFiles])
    (by simp [threeScores]) (by norm_num [threeScores, mkScore])
    (by norm_num [threeScores, mkScore])

end GoReportCard
